import Mathlib

/-!
# gontify: the selection list controller and the history loader

A shallow embedding of `src/main.go` (package `main`): the `model` struct, its
`Update` and `View` methods, `InitialModel`, and the loader `dunstHistory` with
the structs it decodes into.

Modelling choices, all read off the source:

* Go `int` is embedded as `Int`. The only arithmetic on `cursor` is `cursor--`
  under the guard `cursor > 0` and `cursor++` under the guard
  `cursor < len(notifications)-1`, so neither can leave the machine range and
  no wrap-around is involved.
* `map[int]struct{}` is used by the program as a set of keys; an allocated map
  (the only kind `InitialModel` builds, with `make`) is embedded as a
  `Finset Int`. Reading a key is membership, `delete` is `Finset.erase`, and
  the assignment of `struct{}{}` is `insert`.
* Go `string` is embedded as `String`.
* `tea.Msg` is an interface; `Update` only distinguishes a `tea.KeyMsg`, of which
  it reads nothing but `msg.String()`, from every other dynamic type.
* `tea.Cmd` is either `nil` or `tea.Quit` in this program.
* `dunstHistory` talks to the outside twice: it runs a subprocess and it calls
  `json.Unmarshal`. What `cmd.CombinedOutput()` returned is an input of the
  embedding (`CmdResult`) and the decoder is a parameter; a Go result pair
  `(value, error)` of which exactly one side is set is an `Except`.
* `lo.Map` and `lo.Flatten` are library functions; they are embedded as the
  loops they are.
-/

namespace Gontify

/-- The `model` struct of `src/main.go`. -/
structure model where
  notifications : List String
  cursor : Int
  selected : Finset Int
deriving DecidableEq

/-- A `tea.Msg` as `Update` sees it: a key message carrying the text that
`msg.String()` returns, or a message of any other dynamic type. -/
inductive Msg where
  | KeyMsg (name : String)
  | other
deriving DecidableEq

/-- A `tea.Cmd` as `Update` returns it: `nil` or `tea.Quit`. -/
inductive Cmd where
  | nil
  | Quit
deriving DecidableEq

/-- Go `len` on a slice of strings, of type `int`. -/
def len (xs : List String) : Int := (xs.length : Int)

/-- The method `func (m model) Update(msg tea.Msg) (tea.Model, tea.Cmd)`. -/
def Update (m : model) (msg : Msg) : model × Cmd :=
  match msg with
  | Msg.KeyMsg k =>
    if k = "ctrl+c" ∨ k = "q" then
      (m, Cmd.Quit)
    else if k = "up" ∨ k = "k" then
      (if m.cursor > 0 then { m with cursor := m.cursor - 1 } else m, Cmd.nil)
    else if k = "down" ∨ k = "j" then
      (if m.cursor < len m.notifications - 1 then { m with cursor := m.cursor + 1 } else m,
        Cmd.nil)
    else if k = "enter" ∨ k = " " then
      (if m.cursor ∈ m.selected then { m with selected := m.selected.erase m.cursor }
        else { m with selected := insert m.cursor m.selected }, Cmd.nil)
    else
      (m, Cmd.nil)
  | Msg.other => (m, Cmd.nil)

/-- The struct literal returned by `InitialModel`: the given choices, the zero
value of `cursor`, and a freshly made empty map. -/
def newModel (choices : List String) : model :=
  { notifications := choices, cursor := 0, selected := ∅ }

/-- The event loop of the hosting runtime, as far as the state is concerned:
each message is handed to `Update` and the returned model replaces the old one. -/
def run (m : model) (msgs : List Msg) : model :=
  msgs.foldl (fun s e => (Update s e).1) m

/-- The header string literal of `View`. -/
def header : String := "What should we buy at the market?\n\n"

/-- The footer string literal of `View`. -/
def footer : String := "\nPress q to quit.\n"

/-- The call `fmt.Sprintf("%s [%s] %s\n", cursor, checked, choice)` on three strings. -/
def Sprintf (cursor checked choice : String) : String :=
  cursor ++ " [" ++ checked ++ "] " ++ choice ++ "\n"

/-- The `for i, choice := range m.notifications` loop of `View`: `i` is the
index of the next element, `s` the string built so far. -/
def viewLoop (m : model) : Nat → List String → String → String
  | _, [], s => s
  | i, choice :: rest, s =>
    let cursor := if m.cursor = (i : Int) then ">" else " "
    let checked := if (i : Int) ∈ m.selected then "x" else " "
    viewLoop m (i + 1) rest (s ++ Sprintf cursor checked choice)

/-- The method `func (m model) View() string`. -/
def View (m : model) : String :=
  viewLoop m 0 m.notifications header ++ footer

/-! ## The history loader -/

/-- The anonymous struct type of every field of `DunstNotification`: a type
discriminator and the value. -/
structure Tagged (α : Type) where
  Type_ : String
  Data : α
deriving DecidableEq

/-- The `DunstNotification` struct: one raw record of the history. -/
structure DunstNotification where
  Body : Tagged String
  Message : Tagged String
  Summary : Tagged String
  Appname : Tagged String
  Category : Tagged String
  DefaultActionName : Tagged String
  IconPath : Tagged String
  Id : Tagged Int
  Timestamp : Tagged Int
  Timeout : Tagged Int
  Progress : Tagged Int
deriving DecidableEq

/-- The `DunstHistory` struct: the decoded envelope, a list of groups of records. -/
structure DunstHistory where
  Type_ : String
  Data : List (List DunstNotification)
deriving DecidableEq

/-- The `Notification` struct. -/
structure Notification where
  App : String
  Body : String
deriving DecidableEq

/-- The error values `cmd.CombinedOutput()` returns (package `os/exec`): an
`*exec.Error` when the command could not be started, an `*exec.ExitError` when
it ran and reported failure. Under `CombinedOutput` both streams go to the
returned byte slice, so the `Stderr` field of the exit error stays empty and
the error holds the process status only. -/
inductive ExecError where
  | Error (Name : String) (Err : String)
  | ExitError (exitCode : Int)
deriving DecidableEq

/-- An error value returned by `json.Unmarshal`, with its message. -/
structure JsonError where
  msg : String
deriving DecidableEq

/-- The dynamic kinds of the `error` values that flow through `dunstHistory`:
the one that came from the subprocess and the one that came from the decoder. -/
inductive GoError where
  | exec (e : ExecError)
  | json (e : JsonError)
deriving DecidableEq

/-- What `cmd.CombinedOutput()` returned: the captured bytes of both streams
and the error, `none` standing for `nil`. -/
structure CmdResult where
  output : String
  err : Option ExecError
deriving DecidableEq

/-- The loop of the library function `lo.Map` (package `github.com/samber/lo`):
`result[i] = iteratee(collection[i], i)` for each index in order. -/
def lo_MapFrom {T R : Type} (iteratee : T → Int → R) : Nat → List T → List R
  | _, [] => []
  | i, x :: xs => iteratee x (i : Int) :: lo_MapFrom iteratee (i + 1) xs

/-- The library function `lo.Map`. -/
def lo_Map {T R : Type} (collection : List T) (iteratee : T → Int → R) : List R :=
  lo_MapFrom iteratee 0 collection

/-- The library function `lo.Flatten`: starting from an empty slice, each inner
slice is appended in order. -/
def lo_Flatten {T : Type} (collection : List (List T)) : List T :=
  collection.foldl (fun result inner => result ++ inner) []

/-- The function `dunstHistory`, given what the subprocess call returned and
the decoder `json.Unmarshal` at type `DunstHistory`. -/
def dunstHistory (cmd : CmdResult) (Unmarshal : String → Except JsonError DunstHistory) :
    Except GoError (List Notification) :=
  match cmd.err with
  | some err => Except.error (GoError.exec err)
  | none =>
    match Unmarshal cmd.output with
    | Except.error err => Except.error (GoError.json err)
    | Except.ok dunstHistory =>
      let notfs := lo_Map dunstHistory.Data (fun items _ =>
        lo_Map items (fun item _ => Notification.mk item.Appname.Data item.Body.Data))
      let nots := lo_Flatten notfs
      Except.ok nots

/-- The function `InitialModel`; the error result stands for the `log.Fatalf`
call, which ends the process. -/
def InitialModel (cmd : CmdResult) (Unmarshal : String → Except JsonError DunstHistory) :
    Except GoError model :=
  match dunstHistory cmd Unmarshal with
  | Except.error err => Except.error err
  | Except.ok notifications =>
    let choices := lo_Map notifications (fun item _ => item.Body)
    Except.ok (newModel choices)

/-! ## `View` with the receiver threaded through -/

/-- The variables a running call of `View` can assign: its copy of the
receiver and the local `s`. -/
structure ViewFrame where
  m : model
  s : String

/-- One iteration of the loop of `View` on the frame: the locals `cursor` and
`checked` are computed from the receiver and `s` is extended. -/
def viewBody (f : ViewFrame) (i : Nat) (choice : String) : ViewFrame :=
  let cursor := if f.m.cursor = (i : Int) then ">" else " "
  let checked := if (i : Int) ∈ f.m.selected then "x" else " "
  { f with s := f.s ++ Sprintf cursor checked choice }

/-- The loop of `View` on the frame. -/
def viewFrameLoop : ViewFrame → Nat → List String → ViewFrame
  | f, _, [] => f
  | f, i, choice :: rest => viewFrameLoop (viewBody f i choice) (i + 1) rest

/-- A call of `View` as a state transformer: the returned string together with
the receiver as the call leaves it. -/
def ViewCall (m : model) : String × model :=
  let f0 : ViewFrame := { m := m, s := header }
  let f1 := viewFrameLoop f0 0 f0.m.notifications
  let f2 : ViewFrame := { f1 with s := f1.s ++ footer }
  (f2.s, f2.m)

/-! ## Specification-side vocabulary -/

/-- The cursor invariant of the specification: inside the list when there is
one, still at the initial `0` when the list is empty. -/
def CursorOk (m : model) : Prop :=
  (m.notifications ≠ [] → 0 ≤ m.cursor ∧ m.cursor ≤ len m.notifications - 1) ∧
  (m.notifications = [] → m.cursor = 0)

/-- The text of a rendered row as the specification words it:
cursor marker, a blank, the bracketed check marker, a blank, the item text. -/
def specLine (m : model) (i : Nat) (item : String) : String :=
  (if (i : Int) = m.cursor then ">" else " ") ++ " [" ++
    (if (i : Int) ∈ m.selected then "x" else " ") ++ "] " ++ item

/-- Split a text into its newline-terminated lines (a last line without a
terminator counts as a line too). -/
def lines : List Char → List (List Char)
  | [] => []
  | c :: cs =>
    if c = '\n' then [] :: lines cs
    else
      match lines cs with
      | [] => [[c]]
      | l :: ls => (c :: l) :: ls

/-- The rows of the view as the specification words them: one `specLine` per
item, in item order, the item at index `i` rendered with index `i`. -/
def specRows (m : model) : List String :=
  m.notifications.enum.map (fun p => specLine m p.1 p.2)

/-- The text made of the given rows, each followed by a newline. -/
def joinLines (rows : List String) : String :=
  rows.foldr (fun r acc => r ++ "\n" ++ acc) ""

/-- The projection the specification names: a raw record becomes the
notification of its application name and its body text. -/
def project (r : DunstNotification) : Notification :=
  { App := r.Appname.Data, Body := r.Body.Data }

/-- The well-formedness the specification asks of a state: the cursor inside
the list (at `0` when the list is empty) and `selected` within `[0, len(items))`. -/
def WellFormed (m : model) : Prop :=
  CursorOk m ∧ ∀ i ∈ m.selected, 0 ≤ i ∧ i < len m.notifications

/-- No item text of the state contains a newline. -/
def NoNewline (m : model) : Prop :=
  ∀ t ∈ m.notifications, '\n' ∉ t.data

/-- A raw record with the given application name and body text and every
other field at its zero value. -/
def sampleRecord (app body : String) : DunstNotification :=
  { Body := ⟨"s", body⟩, Message := ⟨"", ""⟩, Summary := ⟨"", ""⟩, Appname := ⟨"s", app⟩,
    Category := ⟨"", ""⟩, DefaultActionName := ⟨"", ""⟩, IconPath := ⟨"", ""⟩,
    Id := ⟨"", 0⟩, Timestamp := ⟨"", 0⟩, Timeout := ⟨"", 0⟩, Progress := ⟨"", 0⟩ }

/-- An envelope of two groups, of two records and of one record. -/
def sampleEnvelope : DunstHistory :=
  { Type_ := "aa{sv}",
    Data := [[sampleRecord "mail" "A", sampleRecord "chat" "B"], [sampleRecord "mail" "C"]] }

/-- A small decoder to instantiate the statements with: it decodes the text
`history` to `sampleEnvelope` and rejects every other text. -/
def sampleUnmarshal (data : String) : Except JsonError DunstHistory :=
  if data = "history" then Except.ok sampleEnvelope
  else Except.error ⟨"invalid character"⟩

/-! ## Helper lemmas -/

theorem Update_notifications (m : model) (msg : Msg) :
    (Update m msg).1.notifications = m.notifications := by
  cases msg with
  | other => rfl
  | KeyMsg k =>
    simp only [Update]
    split_ifs <;> rfl

theorem Update_CursorOk (m : model) (msg : Msg) (h : CursorOk m) :
    CursorOk (Update m msg).1 := by
  cases msg with
  | other => exact h
  | KeyMsg k =>
    obtain ⟨h1, h2⟩ := h
    simp only [Update]
    split_ifs <;> simp only [CursorOk] <;> refine ⟨fun hne => ?_, fun he => ?_⟩ <;>
      first
        | exact h1 hne
        | exact h2 he
        | (have hb := h1 hne; omega)
        | (have hz := h2 he
           simp_all [len])

theorem run_nil (m : model) : run m [] = m := rfl

theorem run_cons (m : model) (e : Msg) (es : List Msg) :
    run m (e :: es) = run (Update m e).1 es := rfl

theorem run_invariant (P : model → Prop) (hstep : ∀ s e, P s → P (Update s e).1)
    (m : model) (msgs : List Msg) (h : P m) : P (run m msgs) := by
  induction msgs generalizing m with
  | nil => exact h
  | cons e es ih => exact ih _ (hstep m e h)

theorem run_notifications (m : model) (msgs : List Msg) :
    (run m msgs).notifications = m.notifications :=
  run_invariant (fun s => s.notifications = m.notifications)
    (fun s e hs => (Update_notifications s e).trans hs) m msgs rfl

/-- What `Update` does on a select key, in one equation. -/
theorem Update_select (m : model) (k : String) (h : k = "enter" ∨ k = " ") :
    Update m (Msg.KeyMsg k) =
      (if m.cursor ∈ m.selected then { m with selected := m.selected.erase m.cursor }
        else { m with selected := insert m.cursor m.selected }, Cmd.nil) := by
  rcases h with rfl | rfl <;> simp [Update]

theorem Sprintf_eq_specLine (m : model) (i : Nat) (choice : String) :
    Sprintf (if m.cursor = (i : Int) then ">" else " ")
      (if (i : Int) ∈ m.selected then "x" else " ") choice = specLine m i choice ++ "\n" := by
  have hc : (if m.cursor = (i : Int) then ">" else " ") =
      (if (i : Int) = m.cursor then ">" else " ") := by
    by_cases h : m.cursor = (i : Int)
    · rw [if_pos h, if_pos h.symm]
    · rw [if_neg h, if_neg (fun h2 => h h2.symm)]
  rw [Sprintf, specLine, hc]

theorem viewLoop_eq (m : model) (rest : List String) (i : Nat) (s : String) :
    viewLoop m i rest s =
      s ++ joinLines ((rest.enumFrom i).map (fun p => specLine m p.1 p.2)) := by
  induction rest generalizing i s with
  | nil => simp [viewLoop, joinLines]
  | cons choice rest ih =>
    rw [viewLoop, ih, Sprintf_eq_specLine]
    simp [joinLines, String.append_assoc]

theorem lines_append_newline (r rest : List Char) (h : '\n' ∉ r) :
    lines (r ++ '\n' :: rest) = r :: lines rest := by
  induction r with
  | nil => simp [lines]
  | cons c r ih =>
    have hc : c ≠ '\n' := fun e => h (e ▸ List.mem_cons_self _ _)
    have hr : '\n' ∉ r := fun e => h (List.mem_cons_of_mem _ e)
    simp [lines, hc, ih hr]

theorem lines_joinLines (rows : List String) (h : ∀ r ∈ rows, '\n' ∉ r.data) :
    lines (joinLines rows).data = rows.map String.data := by
  induction rows with
  | nil => rfl
  | cons r rows ih =>
    have h1 : '\n' ∉ r.data := h r (List.mem_cons_self _ _)
    have h2 : ∀ t ∈ rows, '\n' ∉ t.data := fun t ht => h t (List.mem_cons_of_mem _ ht)
    have hj : (joinLines (r :: rows)).data = r.data ++ '\n' :: (joinLines rows).data := by
      simp [joinLines]
    rw [hj, lines_append_newline _ _ h1, ih h2]
    rfl

theorem specLine_no_newline (m : model) (i : Nat) (item : String)
    (h : '\n' ∉ item.data) : '\n' ∉ (specLine m i item).data := by
  unfold specLine
  split_ifs <;> simpa using h

theorem Update_selected_subset (m : model) (msg : Msg) (i : Int)
    (h : i ∈ (Update m msg).1.selected) : i ∈ m.selected ∨ i = m.cursor := by
  cases msg with
  | other => exact Or.inl h
  | KeyMsg k =>
    simp only [Update] at h
    split_ifs at h <;> first
      | exact Or.inl h
      | exact Or.inl (Finset.mem_of_mem_erase h)
      | (rcases Finset.mem_insert.mp h with e | e
         · exact Or.inr e
         · exact Or.inl e)

/-- On a non-empty item list the selection invariant does hold along every run
from the initial state: the select key only ever adds the cursor, which is an
index of the list. -/
theorem selected_within_of_nonempty (items : List String) (hne : items ≠ [])
    (msgs : List Msg) (i : Int) (hi : i ∈ (run (newModel items) msgs).selected) :
    0 ≤ i ∧ i < len items := by
  have hinv : (run (newModel items) msgs).notifications = items ∧
      CursorOk (run (newModel items) msgs) ∧
      ∀ j ∈ (run (newModel items) msgs).selected, 0 ≤ j ∧ j < len items := by
    refine run_invariant (fun s : model => s.notifications = items ∧ CursorOk s ∧
      ∀ j ∈ s.selected, 0 ≤ j ∧ j < len items) ?_ _ _ ?_
    · rintro s e ⟨hs, hc, hsel⟩
      refine ⟨(Update_notifications s e).trans hs, Update_CursorOk s e hc, fun j hj => ?_⟩
      rcases Update_selected_subset s e j hj with h1 | h1
      · exact hsel j h1
      · have := hc.1 (hs ▸ hne)
        rw [hs] at this
        omega
    · refine ⟨rfl, ⟨fun _ => ⟨le_refl _, ?_⟩, fun _ => rfl⟩, fun j hj => ?_⟩
      · cases items with
        | nil => exact absurd rfl hne
        | cons a as => simp [newModel, len]
      · simp [newModel] at hj
  exact hinv.2.2 i hi

theorem lo_MapFrom_eq_map {T R : Type} (g : T → R) (i : Nat) (xs : List T) :
    lo_MapFrom (fun x _ => g x) i xs = xs.map g := by
  induction xs generalizing i with
  | nil => rfl
  | cons x xs ih => simp [lo_MapFrom, ih]

theorem lo_Map_eq_map {T R : Type} (g : T → R) (xs : List T) :
    lo_Map xs (fun x _ => g x) = xs.map g :=
  lo_MapFrom_eq_map g 0 xs

theorem foldl_append_eq {T : Type} (acc : List T) (xs : List (List T)) :
    xs.foldl (fun result inner => result ++ inner) acc = acc ++ xs.flatten := by
  induction xs generalizing acc with
  | nil => simp
  | cons x xs ih => simp [ih]

theorem lo_Flatten_eq_flatten {T : Type} (xs : List (List T)) :
    lo_Flatten xs = xs.flatten := by
  rw [lo_Flatten, foldl_append_eq]
  rfl

/-- The result of `dunstHistory` when both the subprocess and the decoder succeed. -/
theorem dunstHistory_ok (cmd : CmdResult) (Unmarshal : String → Except JsonError DunstHistory)
    (env : DunstHistory) (h1 : cmd.err = none) (h2 : Unmarshal cmd.output = Except.ok env) :
    dunstHistory cmd Unmarshal = Except.ok ((env.Data.map (List.map project)).flatten) := by
  have hp : (fun (item : DunstNotification) (_ : Int) =>
      Notification.mk item.Appname.Data item.Body.Data) = (fun item _ => project item) := rfl
  have hg : (fun (items : List DunstNotification) (_ : Int) =>
      lo_Map items (fun item _ => Notification.mk item.Appname.Data item.Body.Data)) =
      (fun items _ => List.map project items) := by
    funext items _
    rw [hp, lo_Map_eq_map]
  simp only [dunstHistory, h1, h2]
  rw [hg, lo_Map_eq_map, lo_Flatten_eq_flatten]

theorem dunstHistory_exec_error (cmd : CmdResult)
    (Unmarshal : String → Except JsonError DunstHistory) (e : ExecError)
    (h : cmd.err = some e) : dunstHistory cmd Unmarshal = Except.error (GoError.exec e) := by
  simp only [dunstHistory, h]

theorem dunstHistory_json_error (cmd : CmdResult)
    (Unmarshal : String → Except JsonError DunstHistory) (e : JsonError)
    (h1 : cmd.err = none) (h2 : Unmarshal cmd.output = Except.error e) :
    dunstHistory cmd Unmarshal = Except.error (GoError.json e) := by
  simp only [dunstHistory, h1, h2]

/-- A returned list means that neither the subprocess nor the decoder failed. -/
theorem dunstHistory_ok_inv (cmd : CmdResult)
    (Unmarshal : String → Except JsonError DunstHistory) (ns : List Notification)
    (h : dunstHistory cmd Unmarshal = Except.ok ns) :
    cmd.err = none ∧ ∃ env, Unmarshal cmd.output = Except.ok env := by
  cases he : cmd.err with
  | some e => rw [dunstHistory_exec_error cmd Unmarshal e he] at h; cases h
  | none =>
    cases hu : Unmarshal cmd.output with
    | error e => rw [dunstHistory_json_error cmd Unmarshal e he hu] at h; cases h
    | ok env => exact ⟨rfl, env, rfl⟩

theorem viewFrameLoop_m (f : ViewFrame) (i : Nat) (rest : List String) :
    (viewFrameLoop f i rest).m = f.m := by
  induction rest generalizing f i with
  | nil => rfl
  | cons choice rest ih => rw [viewFrameLoop, ih]; rfl

theorem viewFrameLoop_s (f : ViewFrame) (i : Nat) (rest : List String) :
    (viewFrameLoop f i rest).s = viewLoop f.m i rest f.s := by
  induction rest generalizing f i with
  | nil => rfl
  | cons choice rest ih => rw [viewFrameLoop, ih]; rfl

theorem ViewCall_eq (m : model) : ViewCall m = (View m, m) := by
  simp only [ViewCall, View, viewFrameLoop_m, viewFrameLoop_s]

/-- What `Update` does on a down key, in one equation. -/
theorem Update_down (m : model) (k : String) (h : k = "down" ∨ k = "j") :
    Update m (Msg.KeyMsg k) =
      (if m.cursor < len m.notifications - 1 then { m with cursor := m.cursor + 1 } else m,
        Cmd.nil) := by
  rcases h with rfl | rfl <;> simp [Update]

/-- What `Update` does on an up key, in one equation. -/
theorem Update_up (m : model) (k : String) (h : k = "up" ∨ k = "k") :
    Update m (Msg.KeyMsg k) =
      (if m.cursor > 0 then { m with cursor := m.cursor - 1 } else m, Cmd.nil) := by
  rcases h with rfl | rfl <;> simp [Update]

/-- Any number of down keys from a cursor inside the list: the cursor advances
by that number, stopping at the last index. -/
theorem run_downs (msgs : List Msg) (m : model)
    (hd : ∀ e ∈ msgs, e = Msg.KeyMsg "down" ∨ e = Msg.KeyMsg "j")
    (h1 : m.cursor ≤ len m.notifications - 1) :
    (run m msgs).cursor = min (m.cursor + (msgs.length : Int)) (len m.notifications - 1) := by
  induction msgs generalizing m with
  | nil =>
    rw [run_nil, min_eq_left]
    · simp
    · simpa using h1
  | cons e es ih =>
    have hes : ∀ x ∈ es, x = Msg.KeyMsg "down" ∨ x = Msg.KeyMsg "j" :=
      fun x hx => hd x (List.mem_cons_of_mem _ hx)
    have hu : Update m e =
        (if m.cursor < len m.notifications - 1 then { m with cursor := m.cursor + 1 } else m,
          Cmd.nil) := by
      rcases hd e (List.mem_cons_self _ _) with rfl | rfl
      · exact Update_down m "down" (Or.inl rfl)
      · exact Update_down m "j" (Or.inr rfl)
    rw [run_cons, hu]
    by_cases hlt : m.cursor < len m.notifications - 1
    · rw [if_pos hlt]
      have h := ih { m with cursor := m.cursor + 1 } hes (by show m.cursor + 1 ≤ len m.notifications - 1; omega)
      rw [h]
      show min (m.cursor + 1 + (es.length : Int)) (len m.notifications - 1) = _
      rw [List.length_cons]
      push_cast
      congr 1
      omega
    · rw [if_neg hlt]
      rw [ih m hes h1, List.length_cons]
      push_cast
      rw [min_eq_right (by omega), min_eq_right (by omega)]

/-- Any number of up keys from a non-negative cursor: the cursor goes back by
that number, stopping at 0. -/
theorem run_ups (msgs : List Msg) (m : model)
    (hu : ∀ e ∈ msgs, e = Msg.KeyMsg "up" ∨ e = Msg.KeyMsg "k")
    (h0 : 0 ≤ m.cursor) :
    (run m msgs).cursor = max (m.cursor - (msgs.length : Int)) 0 := by
  induction msgs generalizing m with
  | nil =>
    rw [run_nil, max_eq_left]
    · simp
    · simpa using h0
  | cons e es ih =>
    have hes : ∀ x ∈ es, x = Msg.KeyMsg "up" ∨ x = Msg.KeyMsg "k" :=
      fun x hx => hu x (List.mem_cons_of_mem _ hx)
    have hstep : Update m e =
        (if m.cursor > 0 then { m with cursor := m.cursor - 1 } else m, Cmd.nil) := by
      rcases hu e (List.mem_cons_self _ _) with rfl | rfl
      · exact Update_up m "up" (Or.inl rfl)
      · exact Update_up m "k" (Or.inr rfl)
    rw [run_cons, hstep]
    by_cases hgt : m.cursor > 0
    · rw [if_pos hgt]
      have h := ih { m with cursor := m.cursor - 1 } hes (by show 0 ≤ m.cursor - 1; omega)
      rw [h]
      show max (m.cursor - 1 - (es.length : Int)) 0 = _
      rw [List.length_cons]
      push_cast
      congr 1
      omega
    · rw [if_neg hgt]
      rw [ih m hes h0, List.length_cons]
      push_cast
      rw [max_eq_right (by omega), max_eq_right (by omega)]

theorem View_eq (m : model) : View m = header ++ joinLines (specRows m) ++ footer := by
  rw [View, viewLoop_eq]
  rfl

theorem specRows_getElem? (m : model) (i : Nat) :
    (specRows m)[i]? = (m.notifications[i]?).map (specLine m i) := by
  simp only [specRows, List.getElem?_map, List.getElem?_enum, Option.map_map]
  rfl

theorem specRows_no_newline (m : model) (h : NoNewline m) :
    ∀ r ∈ specRows m, '\n' ∉ r.data := by
  intro r hr
  simp only [specRows, List.mem_map] at hr
  obtain ⟨p, hp, rfl⟩ := hr
  exact specLine_no_newline m p.1 p.2 (h p.2 (List.snd_mem_of_mem_enum hp))

theorem specLine_data (m : model) (i : Nat) (item : String) :
    (specLine m i item).data =
      (if (i : Int) = m.cursor then '>' else ' ') :: ' ' :: '[' ::
        (if (i : Int) ∈ m.selected then 'x' else ' ') :: ']' :: ' ' :: item.data := by
  unfold specLine
  split_ifs <;> simp [String.data_append]

/-- A row tells its cursor marker, its check marker and its item text. -/
theorem specLine_inj (m1 m2 : model) (i : Nat) (a b : String)
    (h : specLine m1 i a = specLine m2 i b) :
    ((i : Int) = m1.cursor ↔ (i : Int) = m2.cursor) ∧
    ((i : Int) ∈ m1.selected ↔ (i : Int) ∈ m2.selected) ∧ a = b := by
  have hd := congrArg String.data h
  rw [specLine_data, specLine_data] at hd
  simp only [List.cons.injEq] at hd
  obtain ⟨hm, -, -, hc, -, -, hi⟩ := hd
  refine ⟨?_, ?_, String.ext hi⟩
  · split_ifs at hm with p q q
    · exact ⟨fun _ => q, fun _ => p⟩
    · exact absurd hm (by decide)
    · exact absurd hm (by decide)
    · exact ⟨fun x => absurd x p, fun x => absurd x q⟩
  · split_ifs at hc with p q q
    · exact ⟨fun _ => q, fun _ => p⟩
    · exact absurd hc (by decide)
    · exact absurd hc (by decide)
    · exact ⟨fun x => absurd x p, fun x => absurd x q⟩

/-- Without newlines in the items, equal views have equal rows. -/
theorem specRows_eq_of_View_eq (m1 m2 : model) (n1 : NoNewline m1) (n2 : NoNewline m2)
    (hv : View m1 = View m2) : specRows m1 = specRows m2 := by
  rw [View_eq, View_eq] at hv
  have hd := congrArg String.data hv
  simp only [String.data_append] at hd
  have hb : (joinLines (specRows m1)).data = (joinLines (specRows m2)).data :=
    List.append_cancel_left (List.append_cancel_right hd)
  have hl := congrArg lines hb
  rw [lines_joinLines _ (specRows_no_newline m1 n1),
    lines_joinLines _ (specRows_no_newline m2 n2)] at hl
  exact List.map_injective_iff.mpr (fun x y hxy => String.ext hxy) hl

/-! ## Claims -/

/-- C1: from the initial state, after every step of every finite sequence of
messages given to `Update`, the cursor lies in `[0, len(items)-1]` when the item
list is non-empty and is still `0` when the item list is empty. -/
theorem C1_cursor_stays_in_range (items : List String) (msgs : List Msg) (k : Nat) :
    (run (newModel items) (msgs.take k)).notifications = items ∧
    (items ≠ [] → 0 ≤ (run (newModel items) (msgs.take k)).cursor ∧
      (run (newModel items) (msgs.take k)).cursor ≤ len items - 1) ∧
    (items = [] → (run (newModel items) (msgs.take k)).cursor = 0) := by
  have hn := run_notifications (newModel items) (msgs.take k)
  have hinv : CursorOk (run (newModel items) (msgs.take k)) := by
    apply run_invariant CursorOk Update_CursorOk
    refine ⟨fun hne => ⟨le_refl _, ?_⟩, fun _ => rfl⟩
    cases items with
    | nil => exact absurd rfl hne
    | cons a as => simp [newModel, len]
  rw [CursorOk, hn] at hinv
  exact ⟨hn, hinv.1, hinv.2⟩

/-- C2, evaluated on the code: with an empty item list the select key puts the
index `0` into `selected` although the list has no index `0`, so `selected` is
not within `[0, len(items))` after that step. -/
theorem C2_select_on_empty_list_escapes :
    (run (newModel []) [Msg.KeyMsg "enter"]).notifications = [] ∧
    (0 : Int) ∈ (run (newModel []) [Msg.KeyMsg "enter"]).selected ∧
    ¬ ((0 : Int) < len (run (newModel []) [Msg.KeyMsg "enter"]).notifications) := by
  decide

/-- C3: two select events in a row (each either `enter` or the space key) give
back the state they started from: the same `selected`, cursor and items. -/
theorem C3_select_twice_restores (m : model) (k1 k2 : String)
    (h1 : k1 = "enter" ∨ k1 = " ") (h2 : k2 = "enter" ∨ k2 = " ") :
    (∀ i : Int, i ∈ (Update (Update m (Msg.KeyMsg k1)).1 (Msg.KeyMsg k2)).1.selected ↔
      i ∈ m.selected) ∧
    (Update (Update m (Msg.KeyMsg k1)).1 (Msg.KeyMsg k2)).1.cursor = m.cursor ∧
    (Update (Update m (Msg.KeyMsg k1)).1 (Msg.KeyMsg k2)).1.notifications = m.notifications := by
  have key : (Update (Update m (Msg.KeyMsg k1)).1 (Msg.KeyMsg k2)).1 = m := by
    rw [Update_select m k1 h1, Update_select _ k2 h2]
    by_cases hc : m.cursor ∈ m.selected
    · simp [hc, Finset.insert_erase]
    · simp [hc, Finset.erase_insert]
  rw [key]
  exact ⟨fun _ => Iff.rfl, rfl, rfl⟩

/-- Witness of C3: the second item of a three-item list, unselected, toggled by
`enter` and then by the space key. -/
theorem C3_select_twice_restores_witness :
    (∀ i : Int, i ∈ (Update (Update ⟨["A", "B", "C"], 1, ∅⟩ (Msg.KeyMsg "enter")).1
        (Msg.KeyMsg " ")).1.selected ↔ i ∈ (∅ : Finset Int)) ∧
    (Update (Update ⟨["A", "B", "C"], 1, ∅⟩ (Msg.KeyMsg "enter")).1
        (Msg.KeyMsg " ")).1.cursor = 1 ∧
    (Update (Update ⟨["A", "B", "C"], 1, ∅⟩ (Msg.KeyMsg "enter")).1
        (Msg.KeyMsg " ")).1.notifications = ["A", "B", "C"] :=
  C3_select_twice_restores ⟨["A", "B", "C"], 1, ∅⟩ "enter" " " (Or.inl rfl) (Or.inr rfl)

/-- C4: on the items A, B, C, from the initial state, two down keys put the
cursor at 2, a further enter makes `selected` exactly the set of 2, and `View`
of that state is the header, the rows `"  [ ] A"`, `"  [ ] B"`, `"> [x] C"` in
this order, each ended by a newline, and the footer. -/
theorem C4_worked_example :
    (run (newModel ["A", "B", "C"]) [Msg.KeyMsg "down", Msg.KeyMsg "down"]).cursor = 2 ∧
    (run (newModel ["A", "B", "C"])
      [Msg.KeyMsg "down", Msg.KeyMsg "down", Msg.KeyMsg "enter"]).selected = {2} ∧
    View (run (newModel ["A", "B", "C"])
      [Msg.KeyMsg "down", Msg.KeyMsg "down", Msg.KeyMsg "enter"]) =
      header ++ ("  [ ] A\n" ++ "  [ ] B\n" ++ "> [x] C\n") ++ footer := by
  decide

/-- C5: in a state with a non-empty item list and the cursor inside it, a down
key (`down` or `j`) sets the cursor to `min(cursor+1, len(items)-1)`, hence
leaves it alone at the last index, and changes neither items nor `selected`.
Of the assumptions only `cursor <= len(items)-1` is used, so the statement covers
every state the claim speaks of. -/
theorem C5_down_clamps (m : model) (k : String) (hk : k = "down" ∨ k = "j")
    (h1 : m.cursor ≤ len m.notifications - 1) :
    (Update m (Msg.KeyMsg k)).1.cursor = min (m.cursor + 1) (len m.notifications - 1) ∧
    (m.cursor = len m.notifications - 1 → (Update m (Msg.KeyMsg k)).1.cursor = m.cursor) ∧
    (Update m (Msg.KeyMsg k)).1.notifications = m.notifications ∧
    (Update m (Msg.KeyMsg k)).1.selected = m.selected := by
  have hu : Update m (Msg.KeyMsg k) =
      (if m.cursor < len m.notifications - 1 then { m with cursor := m.cursor + 1 } else m,
        Cmd.nil) := by
    rcases hk with rfl | rfl <;> simp [Update]
  rw [hu]
  by_cases hlt : m.cursor < len m.notifications - 1
  · rw [if_pos hlt]
    refine ⟨?_, fun he => ?_, rfl, rfl⟩
    · rw [min_eq_left (by omega)]
    · omega
  · rw [if_neg hlt]
    refine ⟨?_, fun _ => rfl, rfl, rfl⟩
    rw [min_eq_right (by omega)]
    show m.cursor = _
    omega

/-- Witness of C5: the key `j` at the last of three items. -/
theorem C5_down_clamps_witness :
    (Update ⟨["A", "B", "C"], 2, ∅⟩ (Msg.KeyMsg "j")).1.cursor =
      min ((2 : Int) + 1) (len ["A", "B", "C"] - 1) ∧
    ((2 : Int) = len ["A", "B", "C"] - 1 →
      (Update ⟨["A", "B", "C"], 2, ∅⟩ (Msg.KeyMsg "j")).1.cursor = 2) ∧
    (Update ⟨["A", "B", "C"], 2, ∅⟩ (Msg.KeyMsg "j")).1.notifications = ["A", "B", "C"] ∧
    (Update ⟨["A", "B", "C"], 2, ∅⟩ (Msg.KeyMsg "j")).1.selected = ∅ :=
  C5_down_clamps ⟨["A", "B", "C"], 2, ∅⟩ "j" (Or.inr rfl) (by decide)

/-- C6: in a state with `cursor >= 0`, an up key (`up` or `k`) sets the cursor
to `max(cursor-1, 0)`, hence leaves it at 0 when it is 0, and changes neither
items nor `selected`. -/
theorem C6_up_clamps (m : model) (k : String) (hk : k = "up" ∨ k = "k")
    (h0 : 0 ≤ m.cursor) :
    (Update m (Msg.KeyMsg k)).1.cursor = max (m.cursor - 1) 0 ∧
    (m.cursor = 0 → (Update m (Msg.KeyMsg k)).1.cursor = 0) ∧
    (Update m (Msg.KeyMsg k)).1.notifications = m.notifications ∧
    (Update m (Msg.KeyMsg k)).1.selected = m.selected := by
  have hu : Update m (Msg.KeyMsg k) =
      (if m.cursor > 0 then { m with cursor := m.cursor - 1 } else m, Cmd.nil) := by
    rcases hk with rfl | rfl <;> simp [Update]
  rw [hu]
  by_cases hgt : m.cursor > 0
  · rw [if_pos hgt]
    refine ⟨?_, fun he => ?_, rfl, rfl⟩
    · rw [max_eq_left (by omega)]
    · omega
  · rw [if_neg hgt]
    refine ⟨?_, fun he => he, rfl, rfl⟩
    rw [max_eq_right (by omega)]
    show m.cursor = _
    omega

/-- Witness of C6: the key `up` with the cursor at 0 of a two-item list. -/
theorem C6_up_clamps_witness :
    (Update ⟨["A", "B"], 0, {1}⟩ (Msg.KeyMsg "up")).1.cursor = max ((0 : Int) - 1) 0 ∧
    ((0 : Int) = 0 → (Update ⟨["A", "B"], 0, {1}⟩ (Msg.KeyMsg "up")).1.cursor = 0) ∧
    (Update ⟨["A", "B"], 0, {1}⟩ (Msg.KeyMsg "up")).1.notifications = ["A", "B"] ∧
    (Update ⟨["A", "B"], 0, {1}⟩ (Msg.KeyMsg "up")).1.selected = {1} :=
  C6_up_clamps ⟨["A", "B"], 0, {1}⟩ "up" (Or.inl rfl) (by decide)

/-- C7: a select key (`enter` or the space key) flips the membership of the
cursor index in `selected`, keeps the membership of every other index, and
changes neither cursor nor items. -/
theorem C7_select_toggles (m : model) (k : String) (hk : k = "enter" ∨ k = " ") :
    (m.cursor ∈ (Update m (Msg.KeyMsg k)).1.selected ↔ m.cursor ∉ m.selected) ∧
    (∀ i : Int, i ≠ m.cursor →
      (i ∈ (Update m (Msg.KeyMsg k)).1.selected ↔ i ∈ m.selected)) ∧
    (Update m (Msg.KeyMsg k)).1.cursor = m.cursor ∧
    (Update m (Msg.KeyMsg k)).1.notifications = m.notifications := by
  rw [Update_select m k hk]
  by_cases hc : m.cursor ∈ m.selected
  · rw [if_pos hc]
    refine ⟨?_, fun i hi => ?_, rfl, rfl⟩
    · simp [hc]
    · simp [hi]
  · rw [if_neg hc]
    refine ⟨?_, fun i hi => ?_, rfl, rfl⟩
    · simp [hc]
    · simp [hi]

/-- Witness of C7: the space key on the selected second item of three. -/
theorem C7_select_toggles_witness :
    ((1 : Int) ∈ (Update ⟨["A", "B", "C"], 1, {0, 1}⟩ (Msg.KeyMsg " ")).1.selected ↔
      (1 : Int) ∉ ({0, 1} : Finset Int)) ∧
    (∀ i : Int, i ≠ 1 →
      (i ∈ (Update ⟨["A", "B", "C"], 1, {0, 1}⟩ (Msg.KeyMsg " ")).1.selected ↔
        i ∈ ({0, 1} : Finset Int))) ∧
    (Update ⟨["A", "B", "C"], 1, {0, 1}⟩ (Msg.KeyMsg " ")).1.cursor = 1 ∧
    (Update ⟨["A", "B", "C"], 1, {0, 1}⟩ (Msg.KeyMsg " ")).1.notifications =
      ["A", "B", "C"] :=
  C7_select_toggles ⟨["A", "B", "C"], 1, {0, 1}⟩ " " (Or.inr rfl)

/-- C8: on every message that is not one of the eight bound keys (`ctrl+c`,
`q`, `up`, `k`, `down`, `j`, `enter`, the space key), in particular on every
message that is not a key message, `Update` returns the state it was given
and no command. -/
theorem C8_unbound_is_noop (m : model) (msg : Msg)
    (h : ∀ k ∈ ["ctrl+c", "q", "up", "k", "down", "j", "enter", " "], msg ≠ Msg.KeyMsg k) :
    Update m msg = (m, Cmd.nil) := by
  cases msg with
  | other => rfl
  | KeyMsg k =>
    have hk : ∀ k2 ∈ ["ctrl+c", "q", "up", "k", "down", "j", "enter", " "], k ≠ k2 :=
      fun k2 hk2 e => h k2 hk2 (e ▸ rfl)
    simp only [List.mem_cons, List.mem_singleton, forall_eq_or_imp, forall_eq] at hk
    simp [Update, hk]

/-- Witness of C8: the unbound key `x`, and a message that is not a key. -/
theorem C8_unbound_is_noop_witness :
    Update ⟨["A", "B"], 1, {0}⟩ (Msg.KeyMsg "x") = (⟨["A", "B"], 1, {0}⟩, Cmd.nil) ∧
    Update ⟨["A", "B"], 1, {0}⟩ Msg.other = (⟨["A", "B"], 1, {0}⟩, Cmd.nil) :=
  ⟨C8_unbound_is_noop ⟨["A", "B"], 1, {0}⟩ (Msg.KeyMsg "x") (by decide),
    C8_unbound_is_noop ⟨["A", "B"], 1, {0}⟩ Msg.other (by decide)⟩

/-- C9: `Update` returns the quit command exactly on the keys `ctrl+c` and `q`;
the state it returns then is the state it was given; on every other message
the command is nil. -/
theorem C9_quit_keys (m : model) (msg : Msg) :
    ((Update m msg).2 = Cmd.Quit ↔ (msg = Msg.KeyMsg "ctrl+c" ∨ msg = Msg.KeyMsg "q")) ∧
    ((Update m msg).2 = Cmd.Quit → (Update m msg).1 = m) ∧
    (¬ (msg = Msg.KeyMsg "ctrl+c" ∨ msg = Msg.KeyMsg "q") → (Update m msg).2 = Cmd.nil) := by
  cases msg with
  | other => simp [Update]
  | KeyMsg k =>
    simp only [Update, Msg.KeyMsg.injEq]
    split_ifs <;> simp_all

/-- C10: when no item text contains a newline, `View` is the fixed header, then
exactly `len(items)` lines, one per item in item order, then the fixed footer;
the line of index `i` is the cursor marker (`>` when `i` is the cursor, a blank
otherwise), a blank, the check marker in brackets (`x` when `i` is in
`selected`, a blank otherwise), a blank, and the text of item `i`. -/
theorem C10_view_layout (m : model) (h : ∀ t ∈ m.notifications, '\n' ∉ t.data) :
    View m = header ++ joinLines (specRows m) ++ footer ∧
    lines (joinLines (specRows m)).data = (specRows m).map String.data ∧
    (specRows m).length = m.notifications.length ∧
    (∀ i : Nat, (specRows m)[i]? = (m.notifications[i]?).map (specLine m i)) := by
  refine ⟨?_, ?_, ?_, fun i => ?_⟩
  · rw [View, viewLoop_eq]
    rfl
  · apply lines_joinLines
    intro r hr
    simp only [specRows, List.mem_map] at hr
    obtain ⟨p, hp, rfl⟩ := hr
    exact specLine_no_newline m p.1 p.2 (h p.2 (List.snd_mem_of_mem_enum hp))
  · simp [specRows]
  · simp only [specRows, List.getElem?_map, List.getElem?_enum, Option.map_map]
    rfl

/-- Witness of C10: the three-item state with cursor at 2 and index 2 selected. -/
theorem C10_view_layout_witness :
    View ⟨["A", "B", "C"], 2, {2}⟩ =
      header ++ joinLines (specRows ⟨["A", "B", "C"], 2, {2}⟩) ++ footer ∧
    lines (joinLines (specRows ⟨["A", "B", "C"], 2, {2}⟩)).data =
      (specRows ⟨["A", "B", "C"], 2, {2}⟩).map String.data ∧
    (specRows ⟨["A", "B", "C"], 2, {2}⟩).length = ["A", "B", "C"].length ∧
    (∀ i : Nat, (specRows ⟨["A", "B", "C"], 2, {2}⟩)[i]? =
      ((["A", "B", "C"] : List String)[i]?).map (specLine ⟨["A", "B", "C"], 2, {2}⟩ i)) :=
  C10_view_layout ⟨["A", "B", "C"], 2, {2}⟩ (by decide)

/-- C11: when the subprocess and the decoder succeed, the loader returns the
groups of the envelope projected record by record and concatenated in order:
the result is the flattening of the projected groups, which is the projection
of the flattened groups; its length is the sum of the group lengths; and the
records of any one group stand, in their order, after those of all earlier
groups and before those of all later groups. -/
theorem C11_load_projects_and_flattens (cmd : CmdResult)
    (Unmarshal : String → Except JsonError DunstHistory) (env : DunstHistory)
    (h1 : cmd.err = none) (h2 : Unmarshal cmd.output = Except.ok env) :
    ∃ ns : List Notification, dunstHistory cmd Unmarshal = Except.ok ns ∧
      ns = (env.Data.map (List.map project)).flatten ∧
      ns = env.Data.flatten.map project ∧
      ns.length = (env.Data.map List.length).sum ∧
      (∀ pre g post, env.Data = pre ++ g :: post →
        ns = pre.flatten.map project ++ (g.map project ++ post.flatten.map project)) := by
  have hfm : (env.Data.map (List.map project)).flatten = env.Data.flatten.map project := by
    rw [List.map_flatten]
  refine ⟨_, dunstHistory_ok cmd Unmarshal env h1 h2, rfl, hfm, ?_, fun pre g post he => ?_⟩
  · rw [hfm, List.length_map, List.length_flatten]
  · rw [hfm, he]
    simp

/-- Witness of C11: the sample envelope of a group of two and a group of one. -/
theorem C11_load_projects_and_flattens_witness :
    ∃ ns : List Notification,
      dunstHistory ⟨"history", none⟩ sampleUnmarshal = Except.ok ns ∧
      ns = (sampleEnvelope.Data.map (List.map project)).flatten ∧
      ns = sampleEnvelope.Data.flatten.map project ∧
      ns.length = (sampleEnvelope.Data.map List.length).sum ∧
      (∀ pre g post, sampleEnvelope.Data = pre ++ g :: post →
        ns = pre.flatten.map project ++ (g.map project ++ post.flatten.map project)) :=
  C11_load_projects_and_flattens ⟨"history", none⟩ sampleUnmarshal sampleEnvelope rfl rfl

/-- C12: when the loader succeeds with the list `ns`, `InitialModel` returns a
state with cursor 0, nothing selected, and as items the body texts of `ns`, in
the same order and number. -/
theorem C12_initial_state (cmd : CmdResult)
    (Unmarshal : String → Except JsonError DunstHistory) (ns : List Notification)
    (h : dunstHistory cmd Unmarshal = Except.ok ns) :
    ∃ m : model, InitialModel cmd Unmarshal = Except.ok m ∧
      m.cursor = 0 ∧ m.selected = ∅ ∧
      m.notifications.length = ns.length ∧
      (∀ i : Nat, m.notifications[i]? = (ns[i]?).map Notification.Body) := by
  refine ⟨newModel (ns.map Notification.Body), ?_, rfl, rfl, ?_, fun i => ?_⟩
  · simp only [InitialModel, h]
    rw [lo_Map_eq_map]
  · simp [newModel]
  · simp [newModel]

/-- Witness of C12: the loader run on the sample history. -/
theorem C12_initial_state_witness :
    ∃ m : model, InitialModel ⟨"history", none⟩ sampleUnmarshal = Except.ok m ∧
      m.cursor = 0 ∧ m.selected = ∅ ∧
      m.notifications.length =
        [Notification.mk "mail" "A", Notification.mk "chat" "B",
          Notification.mk "mail" "C"].length ∧
      (∀ i : Nat, m.notifications[i]? =
        ([Notification.mk "mail" "A", Notification.mk "chat" "B",
          Notification.mk "mail" "C"][i]?).map Notification.Body) :=
  C12_initial_state ⟨"history", none⟩ sampleUnmarshal
    [Notification.mk "mail" "A", Notification.mk "chat" "B", Notification.mk "mail" "C"]
    rfl

/-- C13, as stated, fails: a failing subprocess that printed a diagnostic and
one that printed nothing, with the same exit status, make the loader return
the very same error, so no reading of the returned error gives back the
captured output. -/
theorem C13_captured_output_is_dropped :
    dunstHistory ⟨"Failed to connect to dunst", some (ExecError.ExitError 1)⟩ sampleUnmarshal =
      Except.error (GoError.exec (ExecError.ExitError 1)) ∧
    dunstHistory ⟨"", some (ExecError.ExitError 1)⟩ sampleUnmarshal =
      Except.error (GoError.exec (ExecError.ExitError 1)) ∧
    ¬ ∃ carried : Except GoError (List Notification) → String,
      ∀ (cmd : CmdResult) (Unmarshal : String → Except JsonError DunstHistory),
        cmd.err ≠ none → carried (dunstHistory cmd Unmarshal) = cmd.output := by
  refine ⟨rfl, rfl, ?_⟩
  rintro ⟨carried, hc⟩
  have ha := hc ⟨"Failed to connect to dunst", some (ExecError.ExitError 1)⟩ sampleUnmarshal
    (by simp)
  have hb := hc ⟨"", some (ExecError.ExitError 1)⟩ sampleUnmarshal (by simp)
  have hab : ("Failed to connect to dunst" : String) = "" := ha.symm.trans hb
  exact absurd hab (by decide)

/-- C13, amended: when the subprocess could not be started or reported failure,
the loader returns an error and no list, the error is the one the subprocess
call returned, and the result is the same whatever output was captured. -/
theorem C13_subprocess_failure (cmd : CmdResult)
    (Unmarshal : String → Except JsonError DunstHistory) (e : ExecError)
    (h : cmd.err = some e) :
    dunstHistory cmd Unmarshal = Except.error (GoError.exec e) ∧
    (∀ ns, dunstHistory cmd Unmarshal ≠ Except.ok ns) ∧
    (∀ out : String, dunstHistory ⟨out, some e⟩ Unmarshal = dunstHistory cmd Unmarshal) := by
  have hr := dunstHistory_exec_error cmd Unmarshal e h
  refine ⟨hr, fun ns hn => ?_, fun out => ?_⟩
  · rw [hr] at hn
    cases hn
  · rw [hr]
    exact dunstHistory_exec_error ⟨out, some e⟩ Unmarshal e rfl

/-- Witness of C13 amended: a command that is not installed, with output that
would even decode. -/
theorem C13_subprocess_failure_witness :
    dunstHistory ⟨"history", some (ExecError.Error "dunstctl" "not found")⟩ sampleUnmarshal =
      Except.error (GoError.exec (ExecError.Error "dunstctl" "not found")) ∧
    (∀ ns, dunstHistory ⟨"history", some (ExecError.Error "dunstctl" "not found")⟩
      sampleUnmarshal ≠ Except.ok ns) ∧
    (∀ out : String,
      dunstHistory ⟨out, some (ExecError.Error "dunstctl" "not found")⟩ sampleUnmarshal =
        dunstHistory ⟨"history", some (ExecError.Error "dunstctl" "not found")⟩
          sampleUnmarshal) :=
  C13_subprocess_failure ⟨"history", some (ExecError.Error "dunstctl" "not found")⟩
    sampleUnmarshal (ExecError.Error "dunstctl" "not found") rfl

/-- C14: when the subprocess succeeds and its output does not decode, the
loader returns the error of the decoder and no list; and whenever the loader
returns a list, the subprocess succeeded and its output decoded. -/
theorem C14_decode_failure (cmd : CmdResult)
    (Unmarshal : String → Except JsonError DunstHistory) (e : JsonError)
    (h1 : cmd.err = none) (h2 : Unmarshal cmd.output = Except.error e) :
    dunstHistory cmd Unmarshal = Except.error (GoError.json e) ∧
    (∀ ns, dunstHistory cmd Unmarshal ≠ Except.ok ns) ∧
    (∀ (cmd2 : CmdResult) (ns : List Notification),
      dunstHistory cmd2 Unmarshal = Except.ok ns →
        cmd2.err = none ∧ ∃ env, Unmarshal cmd2.output = Except.ok env) := by
  have hr := dunstHistory_json_error cmd Unmarshal e h1 h2
  refine ⟨hr, fun ns hn => ?_, fun cmd2 ns hn => dunstHistory_ok_inv cmd2 Unmarshal ns hn⟩
  rw [hr] at hn
  cases hn

/-- Witness of C14: a successful subprocess whose output is not the history. -/
theorem C14_decode_failure_witness :
    dunstHistory ⟨"<html>", none⟩ sampleUnmarshal =
      Except.error (GoError.json ⟨"invalid character"⟩) ∧
    (∀ ns, dunstHistory ⟨"<html>", none⟩ sampleUnmarshal ≠ Except.ok ns) ∧
    (∀ (cmd2 : CmdResult) (ns : List Notification),
      dunstHistory cmd2 sampleUnmarshal = Except.ok ns →
        cmd2.err = none ∧ ∃ env, sampleUnmarshal cmd2.output = Except.ok env) :=
  C14_decode_failure ⟨"<html>", none⟩ sampleUnmarshal ⟨"invalid character"⟩ rfl rfl

/-- C15: a call of `View` leaves the state as it found it (same items, cursor
and `selected`) and returns the string `View` computes from the state, so a
second call, on the state the first one left, returns the same string. -/
theorem C15_view_is_pure (m : model) :
    (ViewCall m).2 = m ∧
    (ViewCall m).2.notifications = m.notifications ∧
    (ViewCall m).2.cursor = m.cursor ∧
    (ViewCall m).2.selected = m.selected ∧
    (ViewCall m).1 = View m ∧
    (ViewCall (ViewCall m).2).1 = (ViewCall m).1 := by
  rw [ViewCall_eq]
  exact ⟨rfl, rfl, rfl, rfl, rfl, by rw [ViewCall_eq]⟩

/-- C16: on a non-empty item list, `n` down keys from cursor 0 leave the cursor
at `min(n, len(items)-1)`; and `n` up keys from a cursor `c >= 0` leave it at
`max(c-n, 0)`. Each key may be either alias. -/
theorem C16_repeated_moves (items : List String) (sel : Finset Int) (c : Int)
    (downs ups : List Msg) (hne : items ≠ []) (hc : 0 ≤ c)
    (hd : ∀ e ∈ downs, e = Msg.KeyMsg "down" ∨ e = Msg.KeyMsg "j")
    (hu : ∀ e ∈ ups, e = Msg.KeyMsg "up" ∨ e = Msg.KeyMsg "k") :
    (run ⟨items, 0, sel⟩ downs).cursor = min (downs.length : Int) (len items - 1) ∧
    (run ⟨items, c, sel⟩ ups).cursor = max (c - (ups.length : Int)) 0 := by
  constructor
  · have hlen : (0 : Int) ≤ len items - 1 := by
      cases items with
      | nil => exact absurd rfl hne
      | cons a as => simp [len]
    have h := run_downs downs ⟨items, 0, sel⟩ hd hlen
    rw [h]
    simp
  · exact run_ups ups ⟨items, c, sel⟩ hu hc

/-- Witness of C16: five down keys on three items, and three up keys from
cursor 2. -/
theorem C16_repeated_moves_witness :
    (run ⟨["A", "B", "C"], 0, {1}⟩ [Msg.KeyMsg "down", Msg.KeyMsg "j", Msg.KeyMsg "down",
      Msg.KeyMsg "down", Msg.KeyMsg "j"]).cursor =
      min (([Msg.KeyMsg "down", Msg.KeyMsg "j", Msg.KeyMsg "down", Msg.KeyMsg "down",
        Msg.KeyMsg "j"].length : Nat) : Int) (len ["A", "B", "C"] - 1) ∧
    (run ⟨["A", "B", "C"], 2, {1}⟩ [Msg.KeyMsg "up", Msg.KeyMsg "k", Msg.KeyMsg "up"]).cursor =
      max ((2 : Int) - (([Msg.KeyMsg "up", Msg.KeyMsg "k", Msg.KeyMsg "up"].length : Nat) : Int))
        0 :=
  C16_repeated_moves ["A", "B", "C"] {1} 2
    [Msg.KeyMsg "down", Msg.KeyMsg "j", Msg.KeyMsg "down", Msg.KeyMsg "down", Msg.KeyMsg "j"]
    [Msg.KeyMsg "up", Msg.KeyMsg "k", Msg.KeyMsg "up"] (by decide) (by decide) (by decide)
    (by decide)

/-- C17: away from the ends, down and up undo each other: with
`0 <= cursor < len(items)-1`, down then up returns the state it started from;
with `0 < cursor <= len(items)-1`, up then down does. Each key may be either
alias. -/
theorem C17_down_up_inverse (m : model) (kd ku : String)
    (hd : kd = "down" ∨ kd = "j") (hu : ku = "up" ∨ ku = "k") :
    (0 ≤ m.cursor → m.cursor < len m.notifications - 1 →
      (Update (Update m (Msg.KeyMsg kd)).1 (Msg.KeyMsg ku)).1 = m) ∧
    (0 < m.cursor → m.cursor ≤ len m.notifications - 1 →
      (Update (Update m (Msg.KeyMsg ku)).1 (Msg.KeyMsg kd)).1 = m) := by
  constructor
  · intro h0 h1
    rw [Update_down m kd hd, if_pos h1, Update_up _ ku hu]
    have hgt : m.cursor + 1 > 0 := by omega
    show (if m.cursor + 1 > 0 then _ else _) = m
    rw [if_pos hgt]
    cases m
    simp
  · intro h0 h1
    rw [Update_up m ku hu, if_pos h0, Update_down _ kd hd]
    have hlt : m.cursor - 1 < len m.notifications - 1 := by omega
    show (if m.cursor - 1 < len m.notifications - 1 then _ else _) = m
    rw [if_pos hlt]
    cases m
    simp

/-- Witness of C17: the middle of three items, where both halves apply. -/
theorem C17_down_up_inverse_witness :
    (Update (Update ⟨["A", "B", "C"], 1, {0}⟩ (Msg.KeyMsg "j")).1 (Msg.KeyMsg "up")).1 =
      ⟨["A", "B", "C"], 1, {0}⟩ ∧
    (Update (Update ⟨["A", "B", "C"], 1, {0}⟩ (Msg.KeyMsg "up")).1 (Msg.KeyMsg "j")).1 =
      ⟨["A", "B", "C"], 1, {0}⟩ :=
  ⟨(C17_down_up_inverse ⟨["A", "B", "C"], 1, {0}⟩ "j" "up" (Or.inr rfl) (Or.inl rfl)).1
      (by decide) (by decide),
    (C17_down_up_inverse ⟨["A", "B", "C"], 1, {0}⟩ "j" "up" (Or.inr rfl) (Or.inl rfl)).2
      (by decide) (by decide)⟩

/-- C18: two states that are both well formed (cursor inside the list, or 0 on
an empty list; `selected` within `[0, len(items))`) and have no newline in
their item texts, and on which `View` returns the same string, have the same
items, the same cursor and the same `selected`. -/
theorem C18_view_determines_state (m1 m2 : model) (w1 : WellFormed m1) (w2 : WellFormed m2)
    (n1 : NoNewline m1) (n2 : NoNewline m2) (hv : View m1 = View m2) :
    m1.notifications = m2.notifications ∧ m1.cursor = m2.cursor ∧
      m1.selected = m2.selected := by
  have hr := specRows_eq_of_View_eq m1 m2 n1 n2 hv
  have hlen : m1.notifications.length = m2.notifications.length := by
    have h := congrArg List.length hr
    simpa [specRows] using h
  -- row by row: the same markers and the same item text
  have hrow : ∀ i : Nat, i < m1.notifications.length →
      ((i : Int) = m1.cursor ↔ (i : Int) = m2.cursor) ∧
      ((i : Int) ∈ m1.selected ↔ (i : Int) ∈ m2.selected) ∧
      m1.notifications[i]? = m2.notifications[i]? := by
    intro i hi
    have hi2 : i < m2.notifications.length := hlen ▸ hi
    have h := congrArg (fun l => l[i]?) hr
    simp only [specRows_getElem?, List.getElem?_eq_getElem hi, List.getElem?_eq_getElem hi2,
      Option.map_some', Option.some.injEq] at h
    obtain ⟨ha, hb, hc⟩ := specLine_inj m1 m2 i _ _ h
    refine ⟨ha, hb, ?_⟩
    rw [List.getElem?_eq_getElem hi, List.getElem?_eq_getElem hi2, hc]
  have hitems : m1.notifications = m2.notifications := by
    apply List.ext_getElem?
    intro i
    by_cases hi : i < m1.notifications.length
    · exact (hrow i hi).2.2
    · rw [List.getElem?_eq_none (by omega), List.getElem?_eq_none (by omega)]
  have hL : len m1.notifications = len m2.notifications := by rw [hitems]
  -- an index of the list, read as a natural number
  have hidx : ∀ j : Int, 0 ≤ j → j < len m1.notifications →
      ((j.toNat : Nat) : Int) = j ∧ j.toNat < m1.notifications.length := by
    intro j h0 h1
    have hj : ((j.toNat : Nat) : Int) = j := Int.toNat_of_nonneg h0
    refine ⟨hj, ?_⟩
    simp only [len] at h1
    omega
  refine ⟨hitems, ?_, ?_⟩
  · by_cases he : m1.notifications = []
    · rw [w1.1.2 he, w2.1.2 (hitems ▸ he)]
    · obtain ⟨h0, h1⟩ := w1.1.1 he
      obtain ⟨hj, hlt⟩ := hidx m1.cursor h0 (by omega)
      have h := (hrow m1.cursor.toNat hlt).1
      rw [hj] at h
      exact h.mp rfl
  · ext j
    constructor
    · intro hj1
      obtain ⟨h0, h1⟩ := w1.2 j hj1
      obtain ⟨hj, hlt⟩ := hidx j h0 h1
      have h := (hrow j.toNat hlt).2.1
      rw [hj] at h
      exact h.mp hj1
    · intro hj2
      obtain ⟨h0, h1⟩ := w2.2 j hj2
      obtain ⟨hj, hlt⟩ := hidx j h0 (hL ▸ h1)
      have h := (hrow j.toNat hlt).2.1
      rw [hj] at h
      exact h.mpr hj2

/-- Witness of C18: two descriptions of the state with items A, B, cursor 1 and
both indices selected, which render alike. -/
theorem C18_view_determines_state_witness :
    (⟨["A", "B"], 1, {0, 1}⟩ : model).notifications =
      (⟨["A", "B"], 0 + 1, {1, 0}⟩ : model).notifications ∧
    (⟨["A", "B"], 1, {0, 1}⟩ : model).cursor = (⟨["A", "B"], 0 + 1, {1, 0}⟩ : model).cursor ∧
    (⟨["A", "B"], 1, {0, 1}⟩ : model).selected =
      (⟨["A", "B"], 0 + 1, {1, 0}⟩ : model).selected :=
  C18_view_determines_state ⟨["A", "B"], 1, {0, 1}⟩ ⟨["A", "B"], 0 + 1, {1, 0}⟩
    (by unfold WellFormed CursorOk; decide) (by unfold WellFormed CursorOk; decide)
    (by unfold NoNewline; decide) (by unfold NoNewline; decide) (by decide)

end Gontify
